import Mathlib

/-!
Verification of the vlr-scraper HTML-extraction core.

The document-tree / CSS-selector engine is an external collaborator of the
program (it is consumed as a primitive); accordingly each parser is embedded
from the point where the source has already selected its elements: the raw
text values, attribute values and class-token lists the source reads off the
selected elements are the inputs of the Lean functions, and everything the
source does with those values (trimming, splitting, numeric parsing, zipping,
folding, defaulting, error propagation) is translated directly.

Machine integers are modelled as Nat / Int with the source's width bounds
enforced at the parse sites (a Rust `"300".parse::<u8>()` fails, so the
embedded parser rejects values outside the width).  Rust `f32` values are
modelled as exact rationals; every float the program parses is a short
decimal numeral, which the embedded decimal parser covers.
-/

namespace Vlr

/-! ## Rust string primitives

All string functions are written by structural recursion over `List Char`
so that concrete evaluations reduce in the kernel. -/

/-- Whitespace as recognised by Rust `str::trim` on the ASCII inputs the
scraper manipulates. -/
def isWs (c : Char) : Bool :=
  c = ' ' || c = '\t' || c = '\n' || c = '\r'

/-- Rust `str::trim` (ASCII whitespace). -/
def trimChars (l : List Char) : List Char :=
  ((l.dropWhile isWs).reverse.dropWhile isWs).reverse

/-- Rust `str::trim` on `String`. -/
def rtrim (s : String) : String :=
  String.mk (trimChars s.toList)

/-- Does `l` start with `p`? -/
def listStartsWith : List Char → List Char → Bool
  | _, [] => true
  | [], _ :: _ => false
  | c :: cs, p :: ps => c = p && listStartsWith cs ps

/-- Rust `str::starts_with`. -/
def rstartsWith (s p : String) : Bool :=
  listStartsWith s.toList p.toList

/-- Rust `str::strip_prefix`: `some` of the remainder when the prefix is
present, `none` otherwise. -/
def listStripPre : List Char → List Char → Option (List Char)
  | l, [] => some l
  | [], _ :: _ => none
  | c :: cs, p :: ps => if c = p then listStripPre cs ps else none

/-- Rust `str::strip_prefix` on `String`. -/
def rstripPre (s p : String) : Option String :=
  (listStripPre s.toList p.toList).map String.mk

/-- Rust `str::strip_suffix` on `String`. -/
def rstripSuf (s p : String) : Option String :=
  ((listStripPre s.toList.reverse p.toList.reverse).map List.reverse).map String.mk

/-- Rust `str::split(sep: char)` on char lists: the pieces between
occurrences of `c`; the empty input yields one empty piece. -/
def splitChar (c : Char) : List Char → List (List Char)
  | [] => [[]]
  | x :: xs =>
    match splitChar c xs, decide (x = c) with
    | r, true => [] :: r
    | [], false => [[x]]
    | h :: t, false => (x :: h) :: t

/-- Rust `str::split(sep: char)` on `String`. -/
def rsplit (s : String) (c : Char) : List String :=
  (splitChar c s.toList).map String.mk

/-- Rust `str::split_once(sep: char)`. -/
def rsplitOnce (s : String) (c : Char) : Option (String × String) :=
  match rsplit s c with
  | [] => none
  | [_] => none
  | a :: rest => some (a, String.intercalate (String.mk [c]) rest)

/-- Rust `str::splitn(3, sep)`: at most three pieces, the last one keeping
the remaining separators. -/
def rsplitn3 (s : String) (c : Char) : List String :=
  match rsplit s c with
  | a :: b :: x :: rest => [a, b, String.intercalate (String.mk [c]) (x :: rest)]
  | l => l

/-- Rust `str::trim_end_matches(c)`: removes every trailing occurrence. -/
def rtrimEndMatches (s : String) (c : Char) : String :=
  String.mk (s.toList.reverse.dropWhile (fun x => x = c)).reverse

/-- Rust `str::replace(c, "")` for a single char (used for stripping `+`). -/
def rremoveChar (s : String) (c : Char) : String :=
  String.mk (s.toList.filter (fun x => x ≠ c))

/-- Rust `str::contains(char)`. -/
def rcontainsChar (s : String) (c : Char) : Bool :=
  s.toList.contains c

/-- ASCII lowercase of a char (Rust `str::to_lowercase` on ASCII input). -/
def lowerChar (c : Char) : Char :=
  if 'A' ≤ c ∧ c ≤ 'Z' then Char.ofNat (c.toNat + 32) else c

/-- Rust `str::to_lowercase` (ASCII). -/
def rtoLower (s : String) : String :=
  String.mk (s.toList.map lowerChar)

/-! ## Rust numeric parsing -/

/-- Numeric value of a digit run. -/
def digitsToNat (l : List Char) : Nat :=
  l.foldl (fun acc c => acc * 10 + (c.toNat - '0'.toNat)) 0

/-- The `some` value of a non-empty all-digit char list. -/
def parseDigits (l : List Char) : Option Nat :=
  if l ≠ [] ∧ l.all Char.isDigit then some (digitsToNat l) else none

/-- Rust `str::parse::<uN>()`: optional leading `+`, then digits, rejecting
values outside the `bits`-bit range. -/
def rparseUInt (bits : Nat) (s : String) : Option Nat :=
  let l := match s.toList with
    | '+' :: rest => rest
    | l => l
  match parseDigits l with
  | some n => if n < 2 ^ bits then some n else none
  | none => none

/-- Rust `str::parse::<iN>()`: optional sign, digits, `bits`-bit range. -/
def rparseInt (bits : Nat) (s : String) : Option Int :=
  match s.toList with
  | '-' :: rest =>
    match parseDigits rest with
    | some n => if n ≤ 2 ^ (bits - 1) then some (-(n : Int)) else none
    | none => none
  | '+' :: rest =>
    match parseDigits rest with
    | some n => if n < 2 ^ (bits - 1) then some (n : Int) else none
    | none => none
  | l =>
    match parseDigits l with
    | some n => if n < 2 ^ (bits - 1) then some (n : Int) else none
    | none => none

/-- Rust `str::parse::<f32>()` modelled as an exact rational, on the decimal
numerals (optional sign, integer part, optional fraction part) that the
scraped pages carry; other float syntaxes are out of the modelled range. -/
def rparseQ (s : String) : Option ℚ :=
  let signed : List Char → Option ℚ := fun l =>
    match splitChar '.' l with
    | [ip] => (parseDigits ip).map (fun n => (n : ℚ))
    | [ip, fp] =>
      if ip = [] ∧ fp = [] then none
      else if (ip = [] ∨ ip.all Char.isDigit) ∧ (fp = [] ∨ fp.all Char.isDigit) then
        some ((digitsToNat ip : ℚ) + (digitsToNat fp : ℚ) / (10 : ℚ) ^ fp.length)
      else none
    | _ => none
  match s.toList with
  | '-' :: rest => (signed rest).map (fun q => -q)
  | '+' :: rest => signed rest
  | l => signed l

/-! ## Date and time model (chrono `NaiveDate` / `NaiveTime` / `NaiveDateTime`)

The scraper parses dates with chrono format strings; the embedded parsers
reproduce chrono's parsing of the format strings the source uses
(`"%a, %B %e, %Y"`, `"%a, %b %e, %Y"`, `"%I:%M %p"`,
`"%Y-%m-%d %H:%M:%S"`) over the proleptic Gregorian calendar, on ASCII
input.  Following chrono's parser:
a whitespace item in the format matches any run of whitespace, including
none; every numeric field first skips leading whitespace, then takes up to
its width in digits (at least one); `%a` accepts exactly the three-letter
weekday abbreviation, case-insensitively, and the parsed weekday must be
consistent with the parsed date; `%B` accepts the three-letter month
abbreviation optionally extended by the rest of the full month name,
case-insensitively (the alternate format's `%b` accepts only the
abbreviation, a subset, so the source's `parse(primary).or_else(parse(alt))`
chain accepts exactly the primary format's language and is modelled by one
function); `%Y` is signed — with an explicit `+`/`-` sign any number of
digits follows, without a sign at most four — and the resulting year must
lie in chrono's `NaiveDate` range −262144 ≤ year ≤ 262143; `%I` requires
1–12, `%H` at most 23, `%M` at most 59, and `%S` at most 60 (chrono accepts
a leap second, which the whole-second model keeps as the literal 60); the
whole input must be consumed. -/

/-- A calendar date (chrono `NaiveDate`: proleptic Gregorian, signed
astronomical year). -/
structure NDate where
  year : Int
  month : Nat
  day : Nat
deriving Repr, DecidableEq

/-- A time of day (chrono `NaiveTime`, whole seconds). -/
structure NTime where
  hour : Nat
  minute : Nat
  second : Nat
deriving Repr, DecidableEq

/-- chrono `NaiveDateTime`. -/
structure NDateTime where
  date : NDate
  time : NTime
deriving Repr, DecidableEq

/-- chrono `NaiveDate::and_time`. -/
def NDate.andTime (d : NDate) (t : NTime) : NDateTime :=
  ⟨d, t⟩

/-- The representative of a year in 400..799 with the same position in the
400-year Gregorian cycle (the calendar — leap years and weekdays — repeats
exactly every 400 years, as 146097 days are divisible by 7). -/
def yearCycle (y : Int) : Nat :=
  (Int.emod y 400).toNat + 400

def isLeapYear (y : Int) : Bool :=
  let yc := yearCycle y
  (yc % 4 = 0 && yc % 100 ≠ 0) || yc % 400 = 0

def daysInMonth (y : Int) (m : Nat) : Nat :=
  if m = 2 then (if isLeapYear y then 29 else 28)
  else if m = 4 ∨ m = 6 ∨ m = 9 ∨ m = 11 then 30
  else 31

/-- Validity of a year/month/day triple as chrono's `NaiveDate::from_ymd`
checks it, including the `NaiveDate` year range. -/
def validDate (y : Int) (m d : Nat) : Bool :=
  -262144 ≤ y && y ≤ 262143 && 1 ≤ m && m ≤ 12 && 1 ≤ d && d ≤ daysInMonth y m

/-- Day of week (0 = Sunday) by Sakamoto's method, applied to the year's
positive representative in the 400-year cycle. -/
def dayOfWeek (y : Int) (m d : Nat) : Nat :=
  let t := [0, 3, 2, 5, 0, 3, 5, 1, 4, 6, 2, 4]
  let yc := yearCycle y
  let y' := if m < 3 then yc - 1 else yc
  (y' + y' / 4 - y' / 100 + y' / 400 + t.getD (m - 1) 0 + d) % 7

/-- Skip a (possibly empty) run of whitespace, as a chrono `Space` item. -/
def skipWs (l : List Char) : List Char :=
  l.dropWhile isWs

/-- Expect a literal character. -/
def expectChar (c : Char) : List Char → Option (List Char)
  | x :: xs => if x = c then some xs else none
  | [] => none

/-- An unsigned numeric field of width `hi` as chrono scans it: skip
leading whitespace, then take between `lo` and `hi` leading digits. -/
def takeNum (lo hi : Nat) (l : List Char) : Option (Nat × List Char) :=
  let l := skipWs l
  let ds := (l.take hi).takeWhile Char.isDigit
  if lo ≤ ds.length then some (digitsToNat ds, l.drop ds.length) else none

/-- All leading digits (at least one), for a signed year's digit run,
which chrono scans without a width cap. -/
def takeNumAll (l : List Char) : Option (Nat × List Char) :=
  let ds := l.takeWhile Char.isDigit
  if ds ≠ [] then some (digitsToNat ds, l.drop ds.length) else none

/-- chrono's `%Y` field: skip leading whitespace; with an explicit sign,
any number of digits; without one, at most four digits. -/
def takeYear (l : List Char) : Option (Int × List Char) :=
  match skipWs l with
  | '+' :: rest => (takeNumAll rest).map fun q => ((q.1 : Int), q.2)
  | '-' :: rest => (takeNumAll rest).map fun q => (-(q.1 : Int), q.2)
  | l => (takeNum 1 4 l).map fun q => ((q.1 : Int), q.2)

/-- Match one of the given (already lowercase) names as a prefix of `l`
(also lowercase), longest names listed first, returning its index value. -/
def matchName (names : List (String × Nat)) (l : List Char) : Option (Nat × List Char) :=
  match names with
  | [] => none
  | (n, v) :: rest =>
    match listStripPre l n.toList with
    | some l' => some (v, l')
    | none => matchName rest l

/-- Month names as chrono accepts them for `%B` (`short_or_long_month0`):
the three-letter abbreviation, greedily extended to the full name when the
rest of it follows; full names are listed first so the longest match wins,
which is equivalent to chrono's optional-suffix scan. -/
def monthNames : List (String × Nat) :=
  [("january", 1), ("february", 2), ("march", 3), ("april", 4),
   ("june", 6), ("july", 7), ("august", 8), ("september", 9),
   ("october", 10), ("november", 11), ("december", 12),
   ("jan", 1), ("feb", 2), ("mar", 3), ("apr", 4), ("may", 5),
   ("jun", 6), ("jul", 7), ("aug", 8), ("sep", 9),
   ("oct", 10), ("nov", 11), ("dec", 12)]

/-- Weekday names as chrono accepts them for `%a` (`short_weekday`): only
the three-letter abbreviations, case-insensitive; value 0 = Sunday. -/
def weekdayNames : List (String × Nat) :=
  [("sun", 0), ("mon", 1), ("tue", 2), ("wed", 3),
   ("thu", 4), ("fri", 5), ("sat", 6)]

/-- chrono `NaiveDate::parse_from_str` with the source's match-list format
`"%a, %B %e, %Y"` (the alternate `"%a, %b %e, %Y"` accepts a subset of the
same strings, so the source's or-else of the two parses is this single
function). -/
def parseMatchDate (s : String) : Option NDate :=
  let l := s.toList.map lowerChar
  match matchName weekdayNames l with
  | none => none
  | some (wd, l) =>
    match expectChar ',' l with
    | none => none
    | some l =>
      match matchName monthNames (skipWs l) with
      | none => none
      | some (m, l) =>
        match takeNum 1 2 (skipWs l) with
        | none => none
        | some (d, l) =>
          match expectChar ',' l with
          | none => none
          | some l =>
            match takeYear (skipWs l) with
            | none => none
            | some (y, l) =>
              if l = [] ∧ validDate y m d ∧ dayOfWeek y m d = wd then
                some ⟨y, m, d⟩
              else none

/-- chrono `NaiveTime::parse_from_str` with format `"%I:%M %p"`. -/
def parseMatchTime (s : String) : Option NTime :=
  let l := s.toList.map lowerChar
  match takeNum 1 2 l with
  | none => none
  | some (h12, l) =>
    if 1 ≤ h12 ∧ h12 ≤ 12 then
      match expectChar ':' l with
      | none => none
      | some l =>
        match takeNum 1 2 l with
        | none => none
        | some (mi, l) =>
          if mi ≤ 59 then
            match listStripPre (skipWs l) ['a', 'm'] with
            | some l' => if l' = [] then some ⟨h12 % 12, mi, 0⟩ else none
            | none =>
              match listStripPre (skipWs l) ['p', 'm'] with
              | some l' => if l' = [] then some ⟨h12 % 12 + 12, mi, 0⟩ else none
              | none => none
          else none
    else none

/-- chrono `NaiveDateTime::parse_from_str` with the match-header format
`"%Y-%m-%d %H:%M:%S"`. -/
def parseIsoTs (s : String) : Option NDateTime :=
  let l := s.toList
  match takeYear l with
  | none => none
  | some (y, l) =>
    match expectChar '-' l with
    | none => none
    | some l =>
      match takeNum 1 2 l with
      | none => none
      | some (m, l) =>
        match expectChar '-' l with
        | none => none
        | some l =>
          match takeNum 1 2 l with
          | none => none
          | some (d, l) =>
            match takeNum 1 2 (skipWs l) with
            | none => none
            | some (hh, l) =>
              match expectChar ':' l with
              | none => none
              | some l =>
                match takeNum 1 2 l with
                | none => none
                | some (mi, l) =>
                  match expectChar ':' l with
                  | none => none
                  | some l =>
                    match takeNum 1 2 l with
                    | none => none
                    | some (ss, l) =>
                      if l = [] ∧ validDate y m d ∧ hh ≤ 23 ∧ mi ≤ 59 ∧ ss ≤ 60 then
                        some ⟨⟨y, m, d⟩, ⟨hh, mi, ss⟩⟩
                      else none

/-! ## Error type (`src/error.rs`, `VlrError`) -/

/-- Embeds `VlrError` from `src/error.rs`.  The payloads carried by the Rust
variants (urls, status codes, source errors) play no role in control flow
and are dropped; `ElementNotFound` keeps its context string. -/
inductive VlrErr where
  | http
  | unexpectedStatus
  | responseBody
  | selector
  | intParse
  | dateParse
  | elementNotFound (context : String)
deriving Repr, DecidableEq

/-- Whether an `Except` value is a success (`Result::is_ok`). -/
def exceptIsOk : Except VlrErr α → Bool
  | .ok _ => true
  | .error _ => false

/-! ## Match list (`src/scraper/matchlist.rs`)

The selector `div#wrapper :is(div.wf-label.mod-large,div.wf-card a.match-item)`
yields an interleaved document-order sequence of date labels and match
items; `MLElem` is that sequence's element type.  A label carries its first
text node (if any); an item carries the raw values the source reads off it:
the `href` attribute, the `select_text` output of its time element, its team
sub-elements, the last text node of each tag element, the last text node of
each event-text element, and the `select_text` output of the series element. -/

/-- Team info as shown in a match list entry (`MatchListTeam`). -/
structure MatchListTeam where
  name : String
  is_winner : Bool
  score : Option Nat
deriving Repr, DecidableEq

/-- Summary of one match in an event's match list (`MatchListItem`). -/
structure MatchListItem where
  id : Nat
  slug : String
  href : String
  date_time : Option NDateTime
  teams : List MatchListTeam
  tags : List String
  event_text : String
  event_series_text : String
deriving Repr, DecidableEq

/-- Raw values of one `div.match-item-vs-team` element. -/
structure RawMLTeam where
  hasModWinner : Bool
  nameText : String
  scoreText : String
deriving Repr, DecidableEq

/-- Raw values of one `a.match-item` element. -/
structure RawMatchItem where
  href : Option String
  timeText : String
  teams : List RawMLTeam
  tagTexts : List String
  eventTexts : List String
  eventSeriesText : String
deriving Repr, DecidableEq

/-- One element matched by the interleaved label/item selector. -/
inductive MLElem where
  | label (firstText : Option String)
  | item (raw : RawMatchItem)
deriving Repr, DecidableEq

/-- Embeds `parse_team` in `src/scraper/matchlist.rs` (never fails). -/
def ml_parse_team (t : RawMLTeam) : MatchListTeam :=
  { name := t.nameText
    is_winner := t.hasModWinner
    score := rparseUInt 8 t.scoreText }

/-- The id string extracted from a match item's href:
`href.strip_prefix("/")` then a two-component split on `/`. -/
def mlIdSlug (it : RawMatchItem) : String × String :=
  ((rstripPre (it.href.getD "") "/").bind fun s =>
    match rsplit s '/' with
    | [a, b] => some (a, b)
    | _ => none).getD ("", "")

/-- Embeds `parse_match_item` in `src/scraper/matchlist.rs`: fails (with an
`IntParse` error) exactly when the id extracted from the href does not
parse as a `u32`; an absent or unparsable time leaves `date_time` absent. -/
def parse_match_item (date : Option NDate) (it : RawMatchItem) :
    Except VlrErr MatchListItem :=
  let (idStr, slug) := mlIdSlug it
  match rparseUInt 32 idStr with
  | none => .error .intParse
  | some id =>
    .ok
      { id := id
        slug := slug
        href := "https://www.vlr.gg" ++ it.href.getD ""
        date_time :=
          date.bind fun d => (parseMatchTime it.timeText).map fun t => d.andTime t
        teams := it.teams.map ml_parse_team
        tags := it.tagTexts.map rtrim
        event_text := ((it.eventTexts.map rtrim).getLast?).getD ""
        event_series_text := it.eventSeriesText }

/-- The loop body of `parse_matches`: walk the interleaved sequence keeping
`last_date`; a label's text (when present) must parse as a date or the walk
aborts with an error; a match item that fails to parse is skipped. -/
def parse_matches_from (date : Option NDate) :
    List MLElem → Except VlrErr (List MatchListItem)
  | [] => .ok []
  | .label none :: rest => parse_matches_from date rest
  | .label (some s) :: rest =>
    match parseMatchDate (rtrim s) with
    | none => .error .dateParse
    | some d => parse_matches_from (some d) rest
  | .item it :: rest =>
    match parse_match_item date it with
    | .ok m => (parse_matches_from date rest).map (m :: ·)
    | .error _ => parse_matches_from date rest

/-- Embeds `parse_matches` in `src/scraper/matchlist.rs`. -/
def parse_matches (doc : List MLElem) : Except VlrErr (List MatchListItem) :=
  parse_matches_from none doc

/-- A date label whose (trimmed) text parses under neither date format. -/
def isBadLabel : MLElem → Bool
  | .label (some s) => (parseMatchDate (rtrim s)).isNone
  | _ => false

/-- A match item whose extracted id parses, i.e. whose per-item parse
succeeds. -/
def isOkMatchItem : MLElem → Bool
  | .item it => (rparseUInt 32 (mlIdSlug it).1).isSome
  | .label _ => false

/-- Reference scan following the spec's words: keep a `currentDate`,
updated at every parsable date label, and emit every successfully parsed
match item with the `currentDate` in force at its position. -/
def refMatchItems (date : Option NDate) : List MLElem → List MatchListItem
  | [] => []
  | .label none :: rest => refMatchItems date rest
  | .label (some s) :: rest =>
    match parseMatchDate (rtrim s) with
    | none => refMatchItems date rest
    | some d => refMatchItems (some d) rest
  | .item it :: rest =>
    match parse_match_item date it with
    | .ok m => m :: refMatchItems date rest
    | .error _ => refMatchItems date rest

/-! ## URL normalizer (`src/scraper/mod.rs` and `src/utils.rs`) -/

/-- The `BASE_URL` constant in `src/scraper/mod.rs`. -/
def BASE_URL : String := "https://www.vlr.gg"

/-- Embeds `normalize_img_url` in `src/scraper/mod.rs`. -/
def normalize_img_url (src : String) : String :=
  if rstartsWith src "//" then "https:" ++ src
  else if rstartsWith src "/" then BASE_URL ++ src
  else src

/-- Embeds `parse_img_link` in `src/utils.rs` (the older generation of the same
normalizer, with the base URL inlined). -/
def parse_img_link (s : String) : String :=
  if rstartsWith s "//" then "https:" ++ s
  else if rstartsWith s "/" then "https://www.vlr.gg" ++ s
  else s

/-! ## Events list (`src/scraper/events.rs`, `src/events.rs`, `src/model/event.rs`) -/

/-- Embeds `EventStatus` from `src/model/event.rs` / `src/events.rs`. -/
inductive EventStatus where
  | completed
  | ongoing
  | upcoming
  | unknown
deriving Repr, DecidableEq

/-- Embeds `EventStatus::from_str` as derived by strum's `EnumString` with
`serialize_all = "lowercase"` and `Unknown` disabled: an exact
(case-sensitive) match against the lowercase variant names, `Err`
otherwise.  This is what `parse_event` in `src/scraper/events.rs` calls. -/
def EventStatus.fromStr (s : String) : Option EventStatus :=
  if s = "completed" then some .completed
  else if s = "ongoing" then some .ongoing
  else if s = "upcoming" then some .upcoming
  else none

/-- Embeds `impl From<String> for EventStatus` in `src/events.rs` (the older
generation): lowercases the text first, so the lookup is
case-insensitive, defaulting to `Unknown` with a diagnostic. -/
def EventStatus.ofText (s : String) : EventStatus :=
  let l := rtoLower s
  if l = "ongoing" then .ongoing
  else if l = "upcoming" then .upcoming
  else if l = "completed" then .completed
  else .unknown

/-- Embeds `Event` from `src/model/event.rs`. -/
structure Event where
  status : EventStatus
  region : String
  id : Nat
  title : String
  slug : String
  href : String
  icon_url : String
  price : String
  dates : String
deriving Repr, DecidableEq

/-- Raw values of one `a.event-item` element. -/
structure RawEventItem where
  href : Option String
  iconSrc : Option String
  titleText : String
  statusText : String
  priceText : String
  datesText : String
  regionIconClasses : Option (List String)
deriving Repr, DecidableEq

/-- The id/slug extraction of `parse_event`: strip `/event/` from the
detail-link path and split into exactly two components, defaulting to
empty strings. -/
def eventIdSlug (el : RawEventItem) : String × String :=
  ((rstripPre (el.href.getD "") "/event/").bind fun s =>
    match rsplit s '/' with
    | [a, b] => some (a, b)
    | _ => none).getD ("", "")

/-- Embeds `parse_event` in `src/scraper/events.rs`: fails (with an `IntParse`
error) exactly when the id from the detail-link path does not parse as a
`u32`; the status text is mapped through `EventStatus::from_str` with
`unwrap_or_default()`, i.e. defaulting to `Unknown`. -/
def parse_event (el : RawEventItem) : Except VlrErr Event :=
  let href := el.href.getD ""
  let (idStr, slug) := eventIdSlug el
  match rparseUInt 32 idStr with
  | none => .error .intParse
  | some id =>
    .ok
      { status := (EventStatus.fromStr el.statusText).getD .unknown
        region :=
          rtrim ((el.regionIconClasses.bind fun cls =>
            (cls.find? fun c => rstartsWith c "mod-").map fun c =>
              (rstripPre c "mod-").getD "").getD "")
        id := id
        title := el.titleText
        slug := slug
        href := "https://www.vlr.gg" ++ href
        icon_url := (el.iconSrc.map normalize_img_url).getD ""
        price := el.priceText
        dates := el.datesText }

/-- Embeds `parse_events` in `src/scraper/events.rs`: every item whose
`parse_event` fails is silently dropped. -/
def parse_events (items : List RawEventItem) : List Event :=
  items.filterMap fun el => (parse_event el).toOption

/-! ## Player agent-stats usage cell (`src/scraper/player.rs`) -/

/-- Embeds `parse_usage` in `src/scraper/player.rs`: split on `)` into a
parenthesised count and a percentage divided by 100, each part defaulting
to zero when missing or unparsable. -/
def parse_usage (text : String) : Nat × ℚ :=
  let parts := rsplit text ')'
  let count :=
    ((parts[0]?.bind fun s => rstripPre s "(").bind fun s =>
      rparseUInt 32 (rtrim s)).getD 0
  let pct :=
    (((parts[1]?.bind fun s => rstripSuf (rtrim s) "%").bind fun s =>
      rparseQ (rtrim s)).map fun p => p / 100).getD 0
  (count, pct)

/-! ## Match detail entities (`src/model/match_detail.rs`)

`u8`/`u16`/`u32` fields are `Nat` (bounds enforced at the parse sites),
`i16` fields are `Int`, `f32` fields are `ℚ`. -/

structure MatchHeaderTeam where
  id : Nat
  slug : String
  href : String
  name : String
  score : Option Nat
  icon : String
deriving Repr, DecidableEq

structure MatchHeader where
  event_icon : String
  event_title : String
  event_series_name : String
  event_id : Nat
  event_slug : String
  date : NDateTime
  patch : String
  format : String
  status : String
  note : String
  teams : List MatchHeaderTeam
deriving Repr, DecidableEq

structure MatchStream where
  name : String
  link : String
deriving Repr, DecidableEq

structure MatchGamePlayer where
  nation : String
  id : Nat
  name : String
  slug : String
  agent : String
  rating : Option ℚ
  acs : Option Nat
  kills : Option Nat
  deaths : Option Nat
  assists : Option Nat
  kd_diff : Option Int
  kast : Option ℚ
  adr : Option ℚ
  hs_pct : Option ℚ
  first_kills : Option Nat
  first_deaths : Option Nat
  fk_diff : Option Int
deriving Repr, DecidableEq

structure MatchGameRound where
  round : Nat
  winning_team : Nat
  winning_site : String
deriving Repr, DecidableEq

structure MatchGameTeam where
  name : String
  score : Option Nat
  score_t : Option Nat
  score_ct : Option Nat
  is_winner : Bool
  players : List MatchGamePlayer
deriving Repr, DecidableEq

structure MatchGame where
  map : String
  picked_by : Option Nat
  duration : Option String
  teams : List MatchGameTeam
  rounds : List MatchGameRound
deriving Repr, DecidableEq

structure HeadToHeadMatch where
  match_id : Nat
  match_slug : String
  event_name : String
  event_series : String
  event_icon : String
  team1_score : Nat
  team2_score : Nat
  winner_index : Nat
  date : String
deriving Repr, DecidableEq

structure PastMatch where
  match_id : Nat
  match_slug : String
  score_for : Nat
  score_against : Nat
  is_win : Bool
  opponent_name : String
  opponent_logo : String
  date : String
deriving Repr, DecidableEq

structure TeamPastMatches where
  team_id : Nat
  matches_ : List PastMatch
deriving Repr, DecidableEq

structure KillMatrixEntry where
  killer_id : Nat
  victim_id : Nat
  kills : Nat
  deaths : Nat
deriving Repr, DecidableEq

structure PlayerPerformance where
  player_id : Nat
  player_name : String
  multi_kills_2k : Nat
  multi_kills_3k : Nat
  multi_kills_4k : Nat
  multi_kills_5k : Nat
  clutch_1v1 : Nat
  clutch_1v2 : Nat
  clutch_1v3 : Nat
  clutch_1v4 : Nat
  clutch_1v5 : Nat
  econ_rating : Nat
  plants : Nat
  defuses : Nat
deriving Repr, DecidableEq

structure MatchPerformance where
  kill_matrix : List KillMatrixEntry
  player_performances : List PlayerPerformance
deriving Repr, DecidableEq

structure TeamEconomy where
  team_name : String
  pistol_won : Nat
  eco_rounds : Nat
  eco_won : Nat
  semi_eco_rounds : Nat
  semi_eco_won : Nat
  semi_buy_rounds : Nat
  semi_buy_won : Nat
  full_buy_rounds : Nat
  full_buy_won : Nat
deriving Repr, DecidableEq

structure MatchEconomy where
  teams : List TeamEconomy
deriving Repr, DecidableEq

structure Match where
  id : Nat
  header : MatchHeader
  streams : List MatchStream
  vods : List MatchStream
  games : List MatchGame
  head_to_head : List HeadToHeadMatch
  past_matches : List TeamPastMatches
  performance : Option MatchPerformance
  economy : Option MatchEconomy
deriving Repr, DecidableEq

/-! ## Match detail parsing (`src/vlr_scraper/matches/detail.rs`)

Raw structures carry, per selected element, exactly the values the source
reads: `select_text` outputs are taken as given strings (that primitive is
the external selector engine's boundary), while raw text nodes, attributes
and class-token lists keep the source's own trimming/defaulting steps in
the Lean definitions. -/

/-- Raw values of the `div.match-header` element. -/
structure RawHeader where
  eventIconSrc : Option (Option String)
  eventTitleText : String
  eventSeriesText : String
  dateAttr : Option (Option String)
  patchText : String
  vsNoteTexts : List String
  eventHref : Option String
  noteText : String
  teamLinkHrefs : List String
  teamIconSrcs : List (Option String)
  teamNameTexts : List String
  teamScoreTexts : List String
deriving Repr, DecidableEq

/-- The team-building block of `parse_header`: four independently selected
sequences (links, names, scores, icons) are combined by a positional zip
(links are mapped to id/slug pairs and to absolute hrefs first; the score
sequence is replaced by two absent values unless its length is exactly 2). -/
def build_header_teams (teamLinkHrefs teamNameTexts teamScoreTexts : List String)
    (teamIconSrcs : List (Option String)) : List MatchHeaderTeam :=
  let team_id_slug : List (Nat × String) := teamLinkHrefs.map fun e =>
    let pair :=
      match rsplit ((rstripPre e "/team/").getD "") '/' with
      | [a, b] => (a, b)
      | _ => ("", "")
    ((rparseUInt 32 pair.1).getD 0, pair.2)
  let team_hrefs : List String := teamLinkHrefs.map fun e =>
    "https://www.vlr.gg/" ++ ((rstripPre e "/").getD "")
  let team_names := teamNameTexts.map rtrim
  let team_icons := teamIconSrcs.map fun s => (s.map normalize_img_url).getD ""
  let team_scores0 : List (Option Nat) := teamScoreTexts.map fun s => rparseUInt 8 (rtrim s)
  let team_scores := if team_scores0.length = 2 then team_scores0 else [none, none]
  ((((team_id_slug.zip team_hrefs).zip team_names).zip team_scores).zip team_icons).map
    fun p =>
      { id := p.1.1.1.1.1
        slug := p.1.1.1.1.2
        href := p.1.1.1.2
        name := p.1.1.2
        score := p.1.2
        icon := p.2 }

/-- Embeds `parse_header`: the event icon element and the timestamp element are
hard-required, and the machine timestamp must parse; everything else
defaults. -/
def parse_header (h : RawHeader) : Except VlrErr MatchHeader :=
  match h.eventIconSrc with
  | none => .error (.elementNotFound "event icon (match-header-event img)")
  | some iconSrc =>
    match h.dateAttr with
    | none => .error (.elementNotFound "match date element (moment-tz-convert)")
    | some dateAttr =>
      match parseIsoTs (dateAttr.getD "") with
      | none => .error .dateParse
      | some date =>
        let vs_notes := h.vsNoteTexts.map rtrim
        let parts := rsplitn3 ((rstripPre (h.eventHref.getD "") "/event/").getD "") '/'
        .ok
          { event_icon := (iconSrc.map normalize_img_url).getD ""
            event_title := h.eventTitleText
            event_series_name := h.eventSeriesText
            event_id := (parts[0]?.bind fun s => rparseUInt 32 s).getD 0
            event_slug := parts[1]?.getD ""
            date := date
            patch := ((rstripPre h.patchText "Patch ").getD h.patchText)
            format := (vs_notes[1]?.getD "")
            status := (vs_notes[0]?.getD "")
            note := h.noteText
            teams := build_header_teams h.teamLinkHrefs h.teamNameTexts
              h.teamScoreTexts h.teamIconSrcs }

/-- Raw values of one round marker (`div.vlr-rounds-row-col`): the
`select_text` of its round number and the raw class-token lists of its
outcome squares (`div.rnd-sq`). -/
structure RawRoundCol where
  numText : String
  squares : List (List String)
deriving Repr, DecidableEq

/-- Embeds `Itertools::find_position`. -/
def findPositionFrom (p : α → Bool) : Nat → List α → Option (Nat × α)
  | _, [] => none
  | i, x :: xs => if p x then some (i, x) else findPositionFrom p (i + 1) xs

/-- The per-element body of `parse_rounds`: the round number defaults to 0
when its text does not parse; the position of the first outcome square
carrying `mod-win` indexes into the header teams (an out-of-range position,
or no `mod-win` square at all, drops the round); the square's `mod-t` token
selects the attacker side. -/
def parse_round (header : MatchHeader) (r : RawRoundCol) : Option MatchGameRound :=
  let round := (rparseUInt 8 r.numText).getD 0
  let squareClasses := r.squares.map fun cls => cls.map rtrim
  match findPositionFrom (fun cls => cls.contains "mod-win") 0 squareClasses with
  | none => none
  | some (i, cls) =>
    header.teams[i]?.map fun t =>
      { round := round
        winning_team := t.id
        winning_site := if cls.contains "mod-t" then "t" else "ct" }

/-- Embeds `parse_rounds` (the Rust function wraps the list in `Ok`; it can never
fail, so the embedding returns the list directly). -/
def parse_rounds (header : MatchHeader) (rounds : List RawRoundCol) : List MatchGameRound :=
  rounds.filterMap (parse_round header)

/-- Raw values of a player row's name column (`td.mod-player`). -/
structure RawNameCol where
  flagTitle : Option String
  aHref : Option String
  nameText : String
deriving Repr, DecidableEq

/-- Raw values of one player row. -/
structure RawPlayerRow where
  nameCol : Option RawNameCol
  agentTitles : List String
  statTexts : List (Option String)
deriving Repr, DecidableEq

/-- Embeds `stat_both` in `parse_player`: the trimmed first text of the
`span.side.mod-both` child of the i-th stat cell, absent when the cell or
the span is missing. -/
def stat_both (cells : List (Option String)) (i : Nat) : Option String :=
  (cells[i]?.bind id).map rtrim

/-- Embeds `parse_player`: the name column is hard-required; all twelve stat
columns are independently optional, each absent on parse failure; the two
differential stats strip `+` signs before signed parsing; the two
percentage stats strip a `%` suffix and divide by 100. -/
def parse_player (p : RawPlayerRow) : Except VlrErr MatchGamePlayer :=
  match p.nameCol with
  | none => .error (.elementNotFound "player name column (td.mod-player)")
  | some nc =>
    let (idStr, slug) :=
      match rsplit ((rstripPre (nc.aHref.getD "") "/player/").getD "") '/' with
      | [a, b] => (a, b)
      | _ => ("", "")
    let sb := stat_both p.statTexts
    .ok
      { nation := rtrim (nc.flagTitle.getD "")
        id := (rparseUInt 32 idStr).getD 0
        name := nc.nameText
        slug := slug
        agent := p.agentTitles[0]?.getD ""
        rating := (sb 0).bind rparseQ
        acs := (sb 1).bind (rparseUInt 16)
        kills := (sb 2).bind (rparseUInt 16)
        deaths := (sb 3).bind (rparseUInt 16)
        assists := (sb 4).bind (rparseUInt 16)
        kd_diff := (sb 5).bind fun s => rparseInt 16 (rremoveChar s '+')
        kast := ((sb 6).bind fun s => rparseQ ((rstripSuf s "%").getD s)).map (· / 100)
        adr := (sb 7).bind rparseQ
        hs_pct := ((sb 8).bind fun s => rparseQ ((rstripSuf s "%").getD s)).map (· / 100)
        first_kills := (sb 9).bind (rparseUInt 16)
        first_deaths := (sb 10).bind (rparseUInt 16)
        fk_diff := (sb 11).bind fun s => rparseInt 16 (rremoveChar s '+') }

/-- Raw values of the first `div.score` element of a game-team header. -/
structure RawScoreEl where
  text : String
  hasModWin : Bool
deriving Repr, DecidableEq

/-- Raw values of one `div.team` game-team header. -/
structure RawGameTeam where
  nameText : String
  scoreEl : Option RawScoreEl
  scoreTText : String
  scoreCtText : String
deriving Repr, DecidableEq

/-- Embeds `parse_game_team` (never fails). -/
def parse_game_team (t : RawGameTeam) (players : List MatchGamePlayer) : MatchGameTeam :=
  { name := t.nameText
    score := rparseUInt 8 ((t.scoreEl.map (·.text)).getD "")
    score_t := rparseUInt 8 t.scoreTText
    score_ct := rparseUInt 8 t.scoreCtText
    is_winner := (t.scoreEl.map (·.hasModWin)).getD false
    players := players }

/-- Raw values of one `div.vm-stats-game` (one map). -/
structure RawGame where
  mapText : String
  pickedClasses : Option (List String)
  durationText : String
  roundCols : List RawRoundCol
  players1 : List RawPlayerRow
  players2 : List RawPlayerRow
  teamEls : List RawGameTeam
deriving Repr, DecidableEq

/-- Embeds `parse_game`: the picked-by class token `mod-1`/`mod-2` maps to header
team index 0/1; the team headers are zipped against the two player-row
blocks. -/
def parse_game (header : MatchHeader) (g : RawGame) : Except VlrErr MatchGame := do
  let players1 ← g.players1.mapM parse_player
  let players2 ← g.players2.mapM parse_player
  pure
    { map := g.mapText
      picked_by := g.pickedClasses.bind fun cls =>
        if cls.contains "mod-1" then header.teams[0]?.map (·.id)
        else if cls.contains "mod-2" then header.teams[1]?.map (·.id)
        else none
      duration := if g.durationText = "" then none else some g.durationText
      teams := (g.teamEls.zip [players1, players2]).map fun q => parse_game_team q.1 q.2
      rounds := parse_rounds header g.roundCols }

/-- Raw values of one stream button / vod link. -/
structure RawStream where
  nameText : String
  linkHref : Option String
deriving Repr, DecidableEq

structure RawVod where
  firstText : Option String
  href : Option String
deriving Repr, DecidableEq

/-- Raw values of one `span.rf` / `span.ra` score span. -/
structure RawScoreSpan where
  firstText : Option String
  hasModWin : Bool
deriving Repr, DecidableEq

/-- Raw values of one head-to-head item. -/
structure RawH2H where
  href : Option String
  eventIconSrc : Option String
  eventNameText : String
  eventSeriesText : String
  rf : Option RawScoreSpan
  ra : Option RawScoreSpan
  dateText : String
deriving Repr, DecidableEq

/-- The per-item body of `parse_head_to_head`: an item missing its id, a
score span, or a parsable score is skipped silently. -/
def parse_h2h_item (e : RawH2H) : Option HeadToHeadMatch :=
  let href := e.href.getD ""
  let trimmed := (rstripPre href "/").getD href
  let (idStr, slugStr) := (rsplitOnce trimmed '/').getD ("", "")
  (rparseUInt 32 idStr).bind fun match_id =>
  e.rf.bind fun rfEl =>
  e.ra.bind fun raEl =>
  (rparseUInt 8 (rtrim (rfEl.firstText.getD ""))).bind fun t1 =>
  (rparseUInt 8 (rtrim (raEl.firstText.getD ""))).map fun t2 =>
    { match_id := match_id
      match_slug := slugStr
      event_name := e.eventNameText
      event_series := e.eventSeriesText
      event_icon := (e.eventIconSrc.map normalize_img_url).getD ""
      team1_score := t1
      team2_score := t2
      winner_index := if rfEl.hasModWin then 0 else 1
      date := e.dateText }

/-- Embeds `parse_head_to_head` (always `Ok` in the source). -/
def parse_head_to_head (items : List RawH2H) : List HeadToHeadMatch :=
  items.filterMap parse_h2h_item

/-- Raw values of one `a.match-histories-item`. -/
structure RawPastItem where
  href : Option String
  rfText : Option (Option String)
  raText : Option (Option String)
  hasModWin : Bool
  opponentNameText : String
  opponentLogoSrc : Option String
  dateText : String
deriving Repr, DecidableEq

/-- The per-item body of `parse_past_matches`: an entry missing id or
either score is skipped silently. -/
def parse_past_item (e : RawPastItem) : Option PastMatch :=
  let href := e.href.getD ""
  let trimmed := (rstripPre href "/").getD href
  let (idStr, slugStr) := (rsplitOnce trimmed '/').getD ("", "")
  (rparseUInt 32 idStr).bind fun match_id =>
  e.rfText.bind fun rt =>
  (rparseUInt 8 (rtrim (rt.getD ""))).bind fun score_for =>
  e.raText.bind fun rat =>
  (rparseUInt 8 (rtrim (rat.getD ""))).map fun score_against =>
    { match_id := match_id
      match_slug := slugStr
      score_for := score_for
      score_against := score_against
      is_win := e.hasModWin
      opponent_name := e.opponentNameText
      opponent_logo := (e.opponentLogoSrc.map normalize_img_url).getD ""
      date := e.dateText }

/-- Embeds `parse_past_matches`: one `div.match-histories` card per header team,
indexed positionally (a missing team defaults to id 0). -/
def parse_past_matches (header : MatchHeader) (cards : List (List RawPastItem)) :
    List TeamPastMatches :=
  cards.enum.map fun q =>
    { team_id := (header.teams[q.1]?.map (·.id)).getD 0
      matches_ := q.2.filterMap parse_past_item }

/-- The main match-detail document, modelled as the raw values of the
elements its selectors produce. -/
structure MainDoc where
  header : Option RawHeader
  streams : List RawStream
  vods : List RawVod
  games : List RawGame
  h2h : List RawH2H
  pastCards : List (List RawPastItem)
deriving Repr, DecidableEq

/-- Embeds `parse_match`: header is hard-required; streams, vods, games,
head-to-head and past matches come from the main document; the optional
tabs are initialised absent. -/
def parse_match (id : Nat) (doc : MainDoc) : Except VlrErr Match :=
  match doc.header with
  | none => .error (.elementNotFound "match header (div.match-header)")
  | some rh =>
    match parse_header rh with
    | .error e => .error e
    | .ok header =>
      match doc.games.mapM (parse_game header) with
      | .error e => .error e
      | .ok games =>
        .ok
          { id := id
            header := header
            streams := doc.streams.map fun s =>
              { name := s.nameText, link := s.linkHref.getD "" }
            vods := doc.vods.map fun v =>
              { name := rtrim (v.firstText.getD ""), link := v.href.getD "" }
            games := games
            head_to_head := parse_head_to_head doc.h2h
            past_matches := parse_past_matches header doc.pastCards
            performance := none
            economy := none }

/-! ## Performance tab -/

/-- The flattened iteration order of `build_player_name_map`: every player
of every team of every game. -/
def allGamePlayers (m : Match) : List MatchGamePlayer :=
  m.games.flatMap fun g => g.teams.flatMap fun t => t.players

/-- Association-list model of the Rust `HashMap`: insertion prepends (a
later insertion for the same key shadows the earlier one), lookup takes the
most recent binding. -/
def lookupNameMap : List (String × Nat) → String → Option Nat
  | [], _ => none
  | (k, v) :: rest, n => if k = n then some v else lookupNameMap rest n

/-- Embeds `build_player_name_map`: walk every already-parsed game's players and
record name → id for every player with non-zero id and non-empty name. -/
def build_player_name_map (m : Match) : List (String × Nat) :=
  (allGamePlayers m).foldl
    (fun mp p => if p.id ≠ 0 ∧ p.name ≠ "" then (p.name, p.id) :: mp else mp) []

/-- Raw values of one table cell (`td`) of the performance tables. -/
structure RawCell where
  teamDivText : String
  statSqTexts : List String
  cellFirstText : Option String
deriving Repr, DecidableEq

/-- Raw values of the two tables of the performance tab's all-game section. -/
structure RawPerfTables where
  matrixRows : Option (List (List RawCell))
  advRows : Option (List (List RawCell))
deriving Repr, DecidableEq

/-- The kill-matrix block of `parse_performance`: the first row's cells
(minus the corner) give victim names resolved through the name map (0 when
unresolved); each later non-empty row gives a killer and one entry per
following cell, kills/deaths defaulting to 0. -/
def killMatrixEntries (nameMap : List (String × Nat)) (rows : List (List RawCell)) :
    List KillMatrixEntry :=
  let victim_names := (rows[0]?.map fun row => (row.drop 1).map (·.teamDivText)).getD []
  let victim_ids := victim_names.map fun n => (lookupNameMap nameMap n).getD 0
  (rows.drop 1).flatMap fun row =>
    match row with
    | [] => []
    | c0 :: rest =>
      let killer_id := (lookupNameMap nameMap c0.teamDivText).getD 0
      rest.enum.map fun q =>
        let sq := q.2.statSqTexts.map rtrim
        { killer_id := killer_id
          victim_id := victim_ids[q.1]?.getD 0
          kills := (sq[0]?.bind (rparseUInt 16)).getD 0
          deaths := (sq[1]?.bind (rparseUInt 16)).getD 0 }

/-- The advanced-stats block of `parse_performance`: rows with fewer than
14 cells or an empty player name are skipped; every count defaults to 0 on
parse failure. -/
def advStatsEntries (nameMap : List (String × Nat)) (rows : List (List RawCell)) :
    List PlayerPerformance :=
  rows.filterMap fun cells =>
    if cells.length < 14 then none
    else
      let player_name := (cells[0]?.map (·.teamDivText)).getD ""
      if player_name = "" then none
      else
        let pU8 := fun i =>
          (((cells[i]?.bind (·.cellFirstText)).map rtrim).bind (rparseUInt 8)).getD 0
        let pU16 := fun i =>
          (((cells[i]?.bind (·.cellFirstText)).map rtrim).bind (rparseUInt 16)).getD 0
        some
          { player_id := (lookupNameMap nameMap player_name).getD 0
            player_name := player_name
            multi_kills_2k := pU8 2
            multi_kills_3k := pU8 3
            multi_kills_4k := pU8 4
            multi_kills_5k := pU8 5
            clutch_1v1 := pU8 6
            clutch_1v2 := pU8 7
            clutch_1v3 := pU8 8
            clutch_1v4 := pU8 9
            clutch_1v5 := pU8 10
            econ_rating := pU16 11
            plants := pU8 12
            defuses := pU8 13 }

/-- Embeds `parse_performance`: the all-game section and both tables are
hard-required; every id is resolved through the name map built from the
already-parsed games. -/
def parse_performance (doc : Option RawPerfTables) (m : Match) :
    Except VlrErr MatchPerformance :=
  let nameMap := build_player_name_map m
  match doc with
  | none => .error (.elementNotFound "performance all-game section")
  | some tabs =>
    match tabs.matrixRows with
    | none => .error (.elementNotFound "kill matrix table (table.mod-normal)")
    | some mrows =>
      match tabs.advRows with
      | none => .error (.elementNotFound "advanced stats table (table.mod-adv-stats)")
      | some arows =>
        .ok
          { kill_matrix := killMatrixEntries nameMap mrows
            player_performances := advStatsEntries nameMap arows }

/-! ## Economy tab -/

/-- Raw values of one economy-table cell. -/
structure RawEconCell where
  fullText : String
  sqText : Option String
deriving Repr, DecidableEq

/-- Embeds `parse_rounds_won` inside `parse_economy`: the `"total (won)"` shape is
split on the parenthesis; a cell with no parenthesis yields `(0, 0)`. -/
def parse_rounds_won (text : String) : Nat × Nat :=
  match rsplitOnce text '(' with
  | some q =>
    ((rparseUInt 8 (rtrim q.1)).getD 0,
     (rparseUInt 8 (rtrim (rtrimEndMatches q.2 ')'))).getD 0)
  | none => (0, 0)

/-- The `select_text`-like probe of the first `div.stats-sq` of a cell. -/
def econSqText (c : RawEconCell) : String :=
  (c.sqText.map rtrim).getD ""

/-- Embeds `parse_economy`: the all-game section and the economy table are
hard-required; team rows with fewer than six cells or an empty name are
skipped. -/
def parse_economy (doc : Option (Option (List (List RawEconCell)))) :
    Except VlrErr MatchEconomy :=
  match doc with
  | none => .error (.elementNotFound "economy all-game section")
  | some table =>
    match table with
    | none => .error (.elementNotFound "economy table (table.mod-econ)")
    | some rows =>
      .ok
        { teams := rows.filterMap fun row =>
            match row with
            | c0 :: c1 :: c2 :: c3 :: c4 :: c5 :: _ =>
              let team_name := rtrim c0.fullText
              if team_name = "" then none
              else
                let eco := parse_rounds_won (econSqText c2)
                let semiEco := parse_rounds_won (econSqText c3)
                let semiBuy := parse_rounds_won (econSqText c4)
                let fullBuy := parse_rounds_won (econSqText c5)
                some
                  { team_name := team_name
                    pistol_won := (rparseUInt 8 (econSqText c1)).getD 0
                    eco_rounds := eco.1
                    eco_won := eco.2
                    semi_eco_rounds := semiEco.1
                    semi_eco_won := semiEco.2
                    semi_buy_rounds := semiBuy.1
                    semi_buy_won := semiBuy.2
                    full_buy_rounds := fullBuy.1
                    full_buy_won := fullBuy.2 }
            | _ => none }

/-! ## `get_match` orchestration

A fetched tab document is modelled by the result of selecting its
`div.col.mod-3` column (`none` when the column is missing) containing the
raw table data; a fetch is an `Except` whose error is the transport
failure. -/

abbrev PerfColInput := Option RawPerfTables
abbrev EconColInput := Option (Option (List (List RawEconCell)))

/-- Embeds `get_match`: the main document must fetch, contain its column and
parse; the performance and economy tabs are fetched as a concurrent pair
and each one is absorbed best-effort — a transport failure, a missing
column, or a failed tab parse leaves the corresponding field absent
without failing the call. -/
def get_match (id : Nat) (mainFetch : Except VlrErr (Option MainDoc))
    (perfFetch : Except VlrErr (Option PerfColInput))
    (econFetch : Except VlrErr (Option EconColInput)) : Except VlrErr Match :=
  match mainFetch with
  | .error e => .error e
  | .ok none => .error (.elementNotFound "match page column (div.col.mod-3)")
  | .ok (some doc) =>
    match parse_match id doc with
    | .error e => .error e
    | .ok result =>
      .ok
        { result with
          performance :=
            match perfFetch with
            | .ok (some col) => (parse_performance col result).toOption
            | .ok none => none
            | .error _ => none
          economy :=
            match econFetch with
            | .ok (some col) => (parse_economy col).toOption
            | .ok none => none
            | .error _ => none }

/-! # Theorems -/

/-- C8: `parse_usage` splits the literal shape `"(<count>) <pct>%"` on the
parenthesis into an integer count and a fractional percentage divided by
100: `"(95) 20%"` yields count 95 and pct 20/100, and `""` yields count 0
and pct 0. -/
theorem parse_usage_spec :
    parse_usage "(95) 20%" = (95, (20 : ℚ) / 100) ∧ parse_usage "" = (0, 0) := by
  constructor
  · have e1 : parse_usage "(95) 20%" = (95, ((20 : Nat) : ℚ) / 100) := rfl
    rw [e1]; norm_num
  · rfl

/-- C9: the URL normalizer is a total pure function agreeing with its older
twin `parse_img_link`: a `//`-prefixed input gets `https:` prepended, a
`/`-prefixed input gets the site's base origin prepended, and anything
else is returned unchanged. -/
theorem normalize_img_url_spec (s : String) :
    parse_img_link s = normalize_img_url s ∧
    (rstartsWith s "//" = true → normalize_img_url s = "https:" ++ s) ∧
    (rstartsWith s "//" = false → rstartsWith s "/" = true →
      normalize_img_url s = "https://www.vlr.gg" ++ s) ∧
    (rstartsWith s "//" = false → rstartsWith s "/" = false →
      normalize_img_url s = s) := by
  refine ⟨rfl, fun h1 => ?_, fun h1 h2 => ?_, fun h1 h2 => ?_⟩
  · simp [normalize_img_url, h1]
  · simp [normalize_img_url, BASE_URL, h1, h2]
  · simp [normalize_img_url, h1, h2]

/-- Witness for C9, at the spec's three example inputs. -/
theorem normalize_img_url_spec_witness :
    normalize_img_url "//cdn/x.png" = "https://cdn/x.png" ∧
    normalize_img_url "/img/x.png" = "https://www.vlr.gg/img/x.png" ∧
    normalize_img_url "https://x/y" = "https://x/y" := by
  refine ⟨?_, ?_, ?_⟩
  · rw [(normalize_img_url_spec "//cdn/x.png").2.1 (by decide)]; decide
  · rw [(normalize_img_url_spec "/img/x.png").2.2.1 (by decide) (by decide)]; decide
  · rw [(normalize_img_url_spec "https://x/y").2.2.2 (by decide) (by decide)]

/-- C10: a round marker whose outcome squares carry a `mod-win` token at a
position that indexes an existing header team, but whose round-number text
fails to parse as an integer, is still emitted as a round — with round
number 0, inside any surrounding round list — rather than skipped or
raising an error. -/
theorem parse_round_default_zero (header : MatchHeader) (r : RawRoundCol)
    (pre suf : List RawRoundCol) (i : Nat) (cls : List String)
    (hnum : rparseUInt 8 r.numText = none)
    (hwin : findPositionFrom (fun c => c.contains "mod-win") 0
      (r.squares.map fun c => c.map rtrim) = some (i, cls))
    (hteam : i < header.teams.length) :
    ∃ rd, parse_round header r = some rd ∧ rd.round = 0 ∧
      rd ∈ parse_rounds header (pre ++ r :: suf) := by
  have hg : header.teams[i]? = some (header.teams.get ⟨i, hteam⟩) := by
    rw [List.getElem?_eq_getElem hteam]; rfl
  have hpr : parse_round header r =
      some ⟨0, (header.teams.get ⟨i, hteam⟩).id,
        if cls.contains "mod-t" then "t" else "ct"⟩ := by
    simp only [parse_round]
    rw [hnum, hwin]
    show header.teams[i]?.map _ = _
    rw [hg]
    rfl
  exact ⟨_, hpr, rfl, List.mem_filterMap.mpr ⟨r, by simp, hpr⟩⟩

/-- Witness for C10: a round marker with empty number text and a winning
square is emitted with round number 0. -/
theorem parse_round_default_zero_witness :
    ∃ rd,
      parse_round
        { event_icon := "", event_title := "", event_series_name := "",
          event_id := 0, event_slug := "", date := ⟨⟨2025, 1, 4⟩, ⟨18, 0, 0⟩⟩,
          patch := "", format := "", status := "", note := "",
          teams := [{ id := 7, slug := "", href := "", name := "",
                      score := none, icon := "" }] }
        ⟨"", [["mod-win", "mod-t"]]⟩ = some rd ∧
      rd.round = 0 ∧
      rd ∈ parse_rounds
        { event_icon := "", event_title := "", event_series_name := "",
          event_id := 0, event_slug := "", date := ⟨⟨2025, 1, 4⟩, ⟨18, 0, 0⟩⟩,
          patch := "", format := "", status := "", note := "",
          teams := [{ id := 7, slug := "", href := "", name := "",
                      score := none, icon := "" }] }
        [⟨"", [["mod-win", "mod-t"]]⟩] :=
  parse_round_default_zero _ ⟨"", [["mod-win", "mod-t"]]⟩ [] [] 0
    ["mod-win", "mod-t"] (by decide) (by decide) (by decide)

/-- C5: in the header's team construction, the positional zip of the four
independently selected sequences stops at the shortest one (its length is
the minimum of the sequence lengths, with the normalized score sequence
contributing length 2), it never indexes out of bounds (the function is
total), and whenever the scores sequence's length is not 2 every built
team's score is absent. -/
theorem build_header_teams_bounded (links names scoreTexts : List String)
    (icons : List (Option String)) :
    (build_header_teams links names scoreTexts icons).length
      = min (min (min links.length names.length) 2) icons.length ∧
    (scoreTexts.length ≠ 2 →
      ∀ t ∈ build_header_teams links names scoreTexts icons, t.score = none) := by
  constructor
  · simp only [build_header_teams]
    split_ifs with h <;>
      simp only [List.length_map, List.length_zip, List.length_cons,
        List.length_nil] at h ⊢ <;>
      omega
  · intro hlen t ht
    simp only [build_header_teams] at ht
    have hc : ¬ ((scoreTexts.map fun s => rparseUInt 8 (rtrim s)).length = 2) := by
      simpa using hlen
    rw [if_neg hc] at ht
    obtain ⟨q, hq, rfl⟩ := List.mem_map.mp ht
    obtain ⟨q1, e⟩ := q
    obtain ⟨q2, d⟩ := q1
    have hd : d ∈ [(none : Option Nat), none] :=
      (List.of_mem_zip (List.of_mem_zip hq).1).2
    simp only [List.mem_cons, List.not_mem_nil, or_false] at hd
    rcases hd with h | h <;> simp [h]

/-- Witness for C5: two links, two names, two icons but only one score
text — two teams are built and both scores are absent. -/
theorem build_header_teams_bounded_witness :
    (build_header_teams ["/team/7/a", "/team/8/b"] ["A", "B"] ["13"]
      [none, none]).length = 2 ∧
    ({ id := 7, slug := "a", href := "https://www.vlr.gg/team/7/a", name := "A",
       score := none, icon := "" } : MatchHeaderTeam).score = none := by
  constructor
  · have h := (build_header_teams_bounded ["/team/7/a", "/team/8/b"] ["A", "B"]
      ["13"] [none, none]).1
    simpa using h
  · exact (build_header_teams_bounded ["/team/7/a", "/team/8/b"] ["A", "B"]
      ["13"] [none, none]).2 (by decide) _ (by decide)

/-- Every round emitted by `parse_round` carries the id of an existing
header team. -/
theorem parse_round_winning_mem (header : MatchHeader) (r : RawRoundCol)
    (rd : MatchGameRound) (h : parse_round header r = some rd) :
    rd.winning_team ∈ header.teams.map (·.id) := by
  rcases hfind : findPositionFrom (fun cls => cls.contains "mod-win") 0
      (r.squares.map fun cls => cls.map rtrim) with _ | ⟨i, cls⟩
  · simp only [parse_round, hfind] at h
    exact Option.noConfusion h
  · simp only [parse_round, hfind, Option.map_eq_some'] at h
    obtain ⟨t, hgt, hb⟩ := h
    subst hb
    exact List.mem_map.mpr ⟨t, List.getElem?_mem hgt, rfl⟩

/-- A round emitted by `parse_round` carries the (default-0) parse of its
element's round-number text. -/
theorem parse_round_round_eq (header : MatchHeader) (r : RawRoundCol)
    (rd : MatchGameRound) (h : parse_round header r = some rd) :
    rd.round = (rparseUInt 8 r.numText).getD 0 := by
  rcases hfind : findPositionFrom (fun cls => cls.contains "mod-win") 0
      (r.squares.map fun cls => cls.map rtrim) with _ | ⟨i, cls⟩
  · simp only [parse_round, hfind] at h
    exact Option.noConfusion h
  · simp only [parse_round, hfind, Option.map_eq_some'] at h
    obtain ⟨t, _, hb⟩ := h
    subst hb
    rfl

/-- The emitted round numbers form a sublist of the per-element parsed
round numbers (rounds are kept in document order, never reordered). -/
theorem parse_rounds_num_sublist (header : MatchHeader) (els : List RawRoundCol) :
    ((parse_rounds header els).map (·.round)).Sublist
      (els.map fun e => (rparseUInt 8 e.numText).getD 0) := by
  induction els with
  | nil => simp [parse_rounds]
  | cons e rest ih =>
    rcases hpr : parse_round header e with _ | rd
    · simp only [parse_rounds, List.filterMap_cons, hpr, List.map_cons]
      exact ih.cons _
    · simp only [parse_rounds, List.filterMap_cons, hpr, List.map_cons]
      rw [parse_round_round_eq header e rd hpr]
      exact ih.cons₂ _

/-- C2 (amended): every round emitted by `parse_rounds` has a winning team
id belonging to the match header's teams; and the rounds are emitted in
document order, so their round numbers are ascending whenever the
document's round-number sequence is ascending (the parser itself never
sorts). -/
theorem parse_rounds_order_props (header : MatchHeader) (els : List RawRoundCol) :
    (∀ rd ∈ parse_rounds header els, rd.winning_team ∈ header.teams.map (·.id)) ∧
    ((els.map fun e => (rparseUInt 8 e.numText).getD 0).Sorted (· ≤ ·) →
      ((parse_rounds header els).map (·.round)).Sorted (· ≤ ·)) := by
  constructor
  · intro rd hrd
    obtain ⟨r, _, hpr⟩ := List.mem_filterMap.mp hrd
    exact parse_round_winning_mem header r rd hpr
  · intro hs
    exact hs.sublist (parse_rounds_num_sublist header els)

/-- Counterexample for C2 as stated: a main document that parses
successfully, whose single game lists its rounds with numbers 2 then 1 —
the resulting rounds list is not sorted ascending. -/
theorem parse_match_rounds_unsorted_cex :
    ((parse_match 1
        { header := some
            { eventIconSrc := some (some ""), eventTitleText := "",
              eventSeriesText := "", dateAttr := some (some "2025-01-04 18:00:00"),
              patchText := "", vsNoteTexts := [], eventHref := none, noteText := "",
              teamLinkHrefs := ["/team/7/a", "/team/8/b"],
              teamIconSrcs := [some "", some ""], teamNameTexts := ["A", "B"],
              teamScoreTexts := ["2", "1"] },
          streams := [], vods := [],
          games := [{ mapText := "Bind", pickedClasses := none,
                      durationText := "",
                      roundCols := [⟨"2", [["mod-win"]]⟩, ⟨"1", [["mod-win"]]⟩],
                      players1 := [], players2 := [], teamEls := [] }],
          h2h := [], pastCards := [] }).toOption.map
        fun m => m.games.map fun g => g.rounds.map (·.round)) = some [[2, 1]] ∧
    ¬ (([2, 1] : List Nat).Sorted (· ≤ ·)) := by
  constructor
  · rfl
  · decide

/-- Witness for C2 (amended), on a concrete two-round document in
ascending order. -/
theorem parse_rounds_order_props_witness :
    (⟨1, 7, "ct"⟩ : MatchGameRound).winning_team ∈
      ([{ id := 7, slug := "", href := "", name := "", score := none,
          icon := "" }] : List MatchHeaderTeam).map (·.id) ∧
    ((parse_rounds
        { event_icon := "", event_title := "", event_series_name := "",
          event_id := 0, event_slug := "", date := ⟨⟨2025, 1, 4⟩, ⟨18, 0, 0⟩⟩,
          patch := "", format := "", status := "", note := "",
          teams := [{ id := 7, slug := "", href := "", name := "",
                      score := none, icon := "" }] }
        [⟨"1", [["mod-win"]]⟩, ⟨"2", [["mod-win", "mod-t"]]⟩]).map
      (·.round)).Sorted (· ≤ ·) := by
  constructor
  · exact (parse_rounds_order_props
      { event_icon := "", event_title := "", event_series_name := "",
        event_id := 0, event_slug := "", date := ⟨⟨2025, 1, 4⟩, ⟨18, 0, 0⟩⟩,
        patch := "", format := "", status := "", note := "",
        teams := [{ id := 7, slug := "", href := "", name := "",
                    score := none, icon := "" }] }
      [⟨"1", [["mod-win"]]⟩, ⟨"2", [["mod-win", "mod-t"]]⟩]).1
      ⟨1, 7, "ct"⟩ (by decide)
  · exact (parse_rounds_order_props
      { event_icon := "", event_title := "", event_series_name := "",
        event_id := 0, event_slug := "", date := ⟨⟨2025, 1, 4⟩, ⟨18, 0, 0⟩⟩,
        patch := "", format := "", status := "", note := "",
        teams := [{ id := 7, slug := "", href := "", name := "",
                    score := none, icon := "" }] }
      [⟨"1", [["mod-win"]]⟩, ⟨"2", [["mod-win", "mod-t"]]⟩]).2 (by decide)

/-- C7 (amended): every entry returned by `parse_events` comes from an item
whose `parse_event` succeeded; and a successful `parse_event` gives the
entry exactly the id its detail-link path text parsed to (items whose id
text does not parse are dropped — but the parsed id may be 0), and a status
obtained from the status text by the exact-match `EventStatus::from_str`
lookup over the lowercase variant names, defaulting to `Unknown` (never
omitted). -/
theorem parse_events_resolved (items : List RawEventItem) :
    (∀ ev ∈ parse_events items, ∃ it ∈ items, parse_event it = .ok ev) ∧
    (∀ it ev, parse_event it = .ok ev →
      rparseUInt 32 (eventIdSlug it).1 = some ev.id ∧
      ev.status = (EventStatus.fromStr it.statusText).getD .unknown) := by
  constructor
  · intro ev hev
    obtain ⟨it, hit, h⟩ := List.mem_filterMap.mp hev
    refine ⟨it, hit, ?_⟩
    cases hpe : parse_event it with
    | error e => rw [hpe] at h; simp [Except.toOption] at h
    | ok v =>
      rw [hpe] at h
      simp only [Except.toOption, Option.some.injEq] at h
      exact congrArg Except.ok h
  · intro it ev h
    rcases hsplit : eventIdSlug it with ⟨idStr, slug⟩
    simp only [parse_event, hsplit] at h
    cases hid : rparseUInt 32 idStr with
    | none => rw [hid] at h; exact Except.noConfusion h
    | some n =>
      rw [hid] at h
      have h2 := Except.ok.inj h
      subst h2
      exact ⟨by simp [hsplit, hid], rfl⟩

/-- Counterexample for C7 as stated: an event item with detail path
`/event/0/champions` and status text `"Ongoing"` yields an entry with id 0
(not non-zero) whose status is `Unknown`, although the case-insensitive
lookup (the older `EventStatus::from`) recognises the same text as
`Ongoing`. -/
theorem parse_events_nonzero_cex :
    parse_events [{ href := some "/event/0/champions", iconSrc := none,
                    titleText := "Champions", statusText := "Ongoing",
                    priceText := "", datesText := "",
                    regionIconClasses := none }] =
      [{ status := .unknown, region := "", id := 0, title := "Champions",
         slug := "champions", href := "https://www.vlr.gg/event/0/champions",
         icon_url := "", price := "", dates := "" }] ∧
    EventStatus.ofText "Ongoing" = .ongoing := by
  exact ⟨rfl, rfl⟩

/-- Witness for C7 (amended), at a concrete well-formed event item. -/
theorem parse_events_resolved_witness :
    rparseUInt 32
      (eventIdSlug { href := some "/event/800/champs", iconSrc := none,
                     titleText := "T", statusText := "ongoing",
                     priceText := "", datesText := "",
                     regionIconClasses := none }).1 = some 800 ∧
    (EventStatus.ongoing : EventStatus) =
      (EventStatus.fromStr "ongoing").getD .unknown :=
  (parse_events_resolved []).2
    { href := some "/event/800/champs", iconSrc := none, titleText := "T",
      statusText := "ongoing", priceText := "", datesText := "",
      regionIconClasses := none }
    { status := .ongoing, region := "", id := 800, title := "T",
      slug := "champs", href := "https://www.vlr.gg/event/800/champs",
      icon_url := "", price := "", dates := "" }
    (by rfl)

/-- Every value reachable through the name→id map built by
`build_player_name_map` (over an arbitrary starting accumulator) is either
the id of an iterated player or was already reachable in the accumulator. -/
theorem lookup_foldl_mem (ps : List MatchGamePlayer) (mp : List (String × Nat))
    (n : String) (v : Nat)
    (h : lookupNameMap
      (ps.foldl (fun mp p =>
        if p.id ≠ 0 ∧ p.name ≠ "" then (p.name, p.id) :: mp else mp) mp) n = some v) :
    v ∈ ps.map (·.id) ∨ lookupNameMap mp n = some v := by
  induction ps generalizing mp with
  | nil => exact Or.inr h
  | cons p ps ih =>
    simp only [List.foldl_cons] at h
    rcases ih _ h with hv | hv
    · exact Or.inl (List.mem_cons_of_mem _ hv)
    · by_cases hc : p.id ≠ 0 ∧ p.name ≠ ""
      · rw [if_pos hc] at hv
        simp only [lookupNameMap] at hv
        split_ifs at hv with he
        · exact Or.inl (by simp [← Option.some.inj hv])
        · exact Or.inr hv
      · rw [if_neg hc] at hv
        exact Or.inr hv

/-- Every id the performance parser can resolve through the name map is the
id of a player occurring in the parsed games. -/
theorem lookup_name_map_mem (m : Match) (n : String) (v : Nat)
    (h : lookupNameMap (build_player_name_map m) n = some v) :
    v ∈ (allGamePlayers m).map (·.id) := by
  rcases lookup_foldl_mem (allGamePlayers m) [] n v h with hv | hv
  · exact hv
  · simp [lookupNameMap] at hv

/-- A defaulted name-map lookup is either the 0 sentinel or a game player's
id. -/
theorem lookupD_cases (m : Match) (n : String) :
    (lookupNameMap (build_player_name_map m) n).getD 0 = 0 ∨
    (lookupNameMap (build_player_name_map m) n).getD 0 ∈
      (allGamePlayers m).map (·.id) := by
  cases hl : lookupNameMap (build_player_name_map m) n with
  | none => exact Or.inl rfl
  | some v => exact Or.inr (by simpa using lookup_name_map_mem m n v hl)

/-- A defaulted positional read from a mapped list satisfies the mapped
function's invariant (or is the 0 default). -/
theorem getD_zero_or_map (f : String → Nat) (P : Nat → Prop)
    (hf : ∀ s, f s = 0 ∨ P (f s)) (names : List String) (i : Nat) :
    ((names.map f)[i]?).getD 0 = 0 ∨ P (((names.map f)[i]?).getD 0) := by
  cases hv : (names.map f)[i]? with
  | none => exact Or.inl rfl
  | some v =>
    obtain ⟨s, _, rfl⟩ := List.mem_map.mp (List.getElem?_mem hv)
    simpa using hf s

/-- Every kill-matrix entry's killer and victim ids are 0 or a parsed game
player's id. -/
theorem killMatrix_mem (m : Match) (rows : List (List RawCell)) :
    ∀ e ∈ killMatrixEntries (build_player_name_map m) rows,
      (e.killer_id = 0 ∨ e.killer_id ∈ (allGamePlayers m).map (·.id)) ∧
      (e.victim_id = 0 ∨ e.victim_id ∈ (allGamePlayers m).map (·.id)) := by
  intro e he
  simp only [killMatrixEntries] at he
  obtain ⟨row, hrow, he2⟩ := List.mem_flatMap.mp he
  rcases row with _ | ⟨c0, rest⟩
  · simp at he2
  · obtain ⟨q, hq, rfl⟩ := List.mem_map.mp he2
    constructor
    · simpa using lookupD_cases m c0.teamDivText
    · simpa using getD_zero_or_map
        (fun n => (lookupNameMap (build_player_name_map m) n).getD 0)
        (· ∈ (allGamePlayers m).map (·.id)) (fun s => lookupD_cases m s) _ q.1

/-- Every advanced-stats entry's player id is 0 or a parsed game player's
id. -/
theorem advStats_mem (m : Match) (rows : List (List RawCell)) :
    ∀ p ∈ advStatsEntries (build_player_name_map m) rows,
      p.player_id = 0 ∨ p.player_id ∈ (allGamePlayers m).map (·.id) := by
  intro p hp
  simp only [advStatsEntries] at hp
  obtain ⟨cells, _, hsome⟩ := List.mem_filterMap.mp hp
  split_ifs at hsome
  all_goals
    first
      | exact Option.noConfusion hsome
      | · have h3 := Option.some.inj hsome
          subst h3
          simpa using lookupD_cases m ((cells[0]?.map (·.teamDivText)).getD "")

/-- C6: whenever `parse_performance` succeeds against an already-parsed
match, every killer id and victim id in the kill matrix, and every player
id in the advanced-stats list, is resolved through the name→id lookup
built over the parsed games' players: each such id is either the 0
"unknown" sentinel or the id of a player occurring in the parsed games. -/
theorem parse_performance_ids (doc : Option RawPerfTables) (m : Match)
    (perf : MatchPerformance) (h : parse_performance doc m = .ok perf) :
    (∀ e ∈ perf.kill_matrix,
      (e.killer_id = 0 ∨ e.killer_id ∈ (allGamePlayers m).map (·.id)) ∧
      (e.victim_id = 0 ∨ e.victim_id ∈ (allGamePlayers m).map (·.id))) ∧
    (∀ p ∈ perf.player_performances,
      p.player_id = 0 ∨ p.player_id ∈ (allGamePlayers m).map (·.id)) := by
  rcases doc with _ | tabs
  · exact Except.noConfusion h
  rcases htm : tabs.matrixRows with _ | mrows
  · simp only [parse_performance, htm] at h
    exact Except.noConfusion h
  rcases hta : tabs.advRows with _ | arows
  · simp only [parse_performance, htm, hta] at h
    exact Except.noConfusion h
  · simp only [parse_performance, htm, hta] at h
    have h2 := Except.ok.inj h
    subst h2
    exact ⟨killMatrix_mem m mrows, advStats_mem m arows⟩

/-- Witness for C6: a one-player match and a 2×2 kill matrix naming that
player; the resulting entry's ids are the player's id. -/
theorem parse_performance_ids_witness :
    ((⟨7, 7, 5, 3⟩ : KillMatrixEntry).killer_id = 0 ∨
      (⟨7, 7, 5, 3⟩ : KillMatrixEntry).killer_id ∈
        (allGamePlayers
          { id := 1,
            header := { event_icon := "", event_title := "",
                        event_series_name := "", event_id := 0, event_slug := "",
                        date := ⟨⟨2025, 1, 4⟩, ⟨18, 0, 0⟩⟩, patch := "",
                        format := "", status := "", note := "", teams := [] },
            streams := [], vods := [],
            games := [{ map := "", picked_by := none, duration := none,
                        teams := [{ name := "", score := none, score_t := none,
                                    score_ct := none, is_winner := false,
                                    players := [{
                                      nation := "", id := 7,
                                      name := "neo", slug := "", agent := "",
                                      rating := none, acs := none, kills := none,
                                      deaths := none, assists := none,
                                      kd_diff := none, kast := none, adr := none,
                                      hs_pct := none, first_kills := none,
                                      first_deaths := none, fk_diff := none }] }],
                        rounds := [] }],
            head_to_head := [], past_matches := [], performance := none,
            economy := none }).map (·.id)) := by
  have h := (parse_performance_ids
    (some { matrixRows := some [[⟨"", [], none⟩, ⟨"neo", [], none⟩],
                                [⟨"neo", [], none⟩, ⟨"", ["5", "3"], none⟩]],
            advRows := some [] })
    { id := 1,
      header := { event_icon := "", event_title := "",
                  event_series_name := "", event_id := 0, event_slug := "",
                  date := ⟨⟨2025, 1, 4⟩, ⟨18, 0, 0⟩⟩, patch := "",
                  format := "", status := "", note := "", teams := [] },
      streams := [], vods := [],
      games := [{ map := "", picked_by := none, duration := none,
                  teams := [{ name := "", score := none, score_t := none,
                              score_ct := none, is_winner := false,
                              players := [{
                                nation := "", id := 7,
                                name := "neo", slug := "", agent := "",
                                rating := none, acs := none, kills := none,
                                deaths := none, assists := none,
                                kd_diff := none, kast := none, adr := none,
                                hs_pct := none, first_kills := none,
                                first_deaths := none, fk_diff := none }] }],
                  rounds := [] }],
      head_to_head := [], past_matches := [], performance := none,
      economy := none }
    ⟨[⟨7, 7, 5, 3⟩], []⟩ (by rfl)).1 ⟨7, 7, 5, 3⟩ (by decide)
  exact h.1

/-- A successful per-item parse means the item's id text parsed. -/
theorem parse_match_item_ok_isSome (d : Option NDate) (it : RawMatchItem)
    (x : MatchListItem) (h : parse_match_item d it = .ok x) :
    (rparseUInt 32 (mlIdSlug it).1).isSome = true := by
  rcases hsplit : mlIdSlug it with ⟨idStr, slug⟩
  simp only [parse_match_item, hsplit] at h
  cases hid : rparseUInt 32 idStr with
  | none => rw [hid] at h; exact Except.noConfusion h
  | some n => simp [hsplit, hid]

/-- A failed per-item parse means the item's id text did not parse. -/
theorem parse_match_item_err_none (d : Option NDate) (it : RawMatchItem)
    (err : VlrErr) (h : parse_match_item d it = .error err) :
    rparseUInt 32 (mlIdSlug it).1 = none := by
  rcases hsplit : mlIdSlug it with ⟨idStr, slug⟩
  simp only [parse_match_item, hsplit] at h
  cases hid : rparseUInt 32 idStr with
  | none => simp [hsplit, hid]
  | some n => rw [hid] at h; exact Except.noConfusion h

/-- A malformed date label anywhere in the walked sequence makes the whole
match-list parse fail, whatever the date state. -/
theorem pm_from_err (doc : List MLElem) : ∀ d,
    (∃ e ∈ doc, isBadLabel e = true) →
    exceptIsOk (parse_matches_from d doc) = false := by
  induction doc with
  | nil => intro d h; obtain ⟨e, he, _⟩ := h; simp at he
  | cons e rest ih =>
    intro d h
    obtain ⟨e', he', hbad⟩ := h
    rcases e with ⟨_ | s⟩ | it
    · simp only [parse_matches_from]
      rcases List.mem_cons.mp he' with rfl | hmem
      · simp [isBadLabel] at hbad
      · exact ih d ⟨e', hmem, hbad⟩
    · cases hp : parseMatchDate (rtrim s) with
      | none => simp [parse_matches_from, hp, exceptIsOk]
      | some nd =>
        simp only [parse_matches_from, hp]
        rcases List.mem_cons.mp he' with rfl | hmem
        · simp [isBadLabel, hp] at hbad
        · exact ih (some nd) ⟨e', hmem, hbad⟩
    · have hmem : e' ∈ rest := by
        rcases List.mem_cons.mp he' with rfl | hmem
        · simp [isBadLabel] at hbad
        · exact hmem
      have hih := ih d ⟨e', hmem, hbad⟩
      simp only [parse_matches_from]
      cases hpi : parse_match_item d it with
      | ok m =>
        cases hrest : parse_matches_from d rest with
        | error err => simp [Except.map, hrest, exceptIsOk]
        | ok ms => rw [hrest] at hih; simp [exceptIsOk] at hih
      | error err => exact hih

/-- With no malformed date label, the match-list parse always succeeds,
whatever the date state. -/
theorem pm_from_ok (doc : List MLElem) : ∀ d,
    (∀ e ∈ doc, isBadLabel e = false) →
    exceptIsOk (parse_matches_from d doc) = true := by
  induction doc with
  | nil => intro d _; rfl
  | cons e rest ih =>
    intro d h
    have hrest := fun e' he' => h e' (List.mem_cons_of_mem _ he')
    rcases e with ⟨_ | s⟩ | it
    · simpa only [parse_matches_from] using ih d hrest
    · have hself := h (.label (some s)) (List.mem_cons_self _ _)
      cases hp : parseMatchDate (rtrim s) with
      | none => simp [isBadLabel, hp] at hself
      | some nd => simpa only [parse_matches_from, hp] using ih (some nd) hrest
    · simp only [parse_matches_from]
      cases hpi : parse_match_item d it with
      | ok m =>
        have hih := ih d hrest
        cases hres : parse_matches_from d rest with
        | error err => rw [hres] at hih; simp [exceptIsOk] at hih
        | ok ms => simp [Except.map, hres, exceptIsOk]
      | error err => exact ih d hrest

/-- An item whose id parses but whose time text does not yields an item
with an absent date-time, for every date state. -/
theorem parse_match_item_time (d : Option NDate) (it : RawMatchItem)
    (hid : (rparseUInt 32 (mlIdSlug it).1).isSome = true)
    (ht : parseMatchTime it.timeText = none) :
    (parse_match_item d it).toOption.map (·.date_time) = some none := by
  rcases hsplit : mlIdSlug it with ⟨idStr, slug⟩
  rw [hsplit] at hid
  obtain ⟨n, hn⟩ := Option.isSome_iff_exists.mp hid
  simp only [parse_match_item, hsplit, hn, Except.toOption, Option.map_some', ht]
  rcases d with _ | dd <;> simp

/-- C4: a date label whose trimmed text parses under neither date format
fails the whole page; a page with no such label parses; and a match item
whose id parses but whose own time is absent or unparsable yields an item
with an absent date-time rather than failing. -/
theorem parse_matches_error_policy :
    (∀ doc, (∃ e ∈ doc, isBadLabel e = true) →
      exceptIsOk (parse_matches doc) = false) ∧
    (∀ doc, (∀ e ∈ doc, isBadLabel e = false) →
      exceptIsOk (parse_matches doc) = true) ∧
    (∀ d it, (rparseUInt 32 (mlIdSlug it).1).isSome = true →
      parseMatchTime it.timeText = none →
      (parse_match_item d it).toOption.map (·.date_time) = some none) :=
  ⟨fun doc h => pm_from_err doc none h, fun doc h => pm_from_ok doc none h,
   parse_match_item_time⟩

/-- Witness for C4, on the spec's end-to-end scenario: one date label
`"Sat, Jan 4, 2025"` followed by an item with time `"3:00 PM"` and an item
with unparsable time — the page parses, the first item carries
2025-01-04T15:00:00 and the second an absent date-time. -/
theorem parse_matches_error_policy_witness :
    exceptIsOk (parse_matches [.label (some "not a date")]) = false ∧
    exceptIsOk (parse_matches
      [.label (some "Sat, Jan 4, 2025"),
       .item { href := some "/123/m1", timeText := "3:00 PM", teams := [],
               tagTexts := [], eventTexts := [], eventSeriesText := "" },
       .item { href := some "/124/m2", timeText := "TBD", teams := [],
               tagTexts := [], eventTexts := [], eventSeriesText := "" }]) = true ∧
    (parse_match_item (some ⟨2025, 1, 4⟩)
      { href := some "/124/m2", timeText := "TBD", teams := [],
        tagTexts := [], eventTexts := [], eventSeriesText := "" }).toOption.map
      (·.date_time) = some none ∧
    parse_matches
      [.label (some "Sat, Jan 4, 2025"),
       .item { href := some "/123/m1", timeText := "3:00 PM", teams := [],
               tagTexts := [], eventTexts := [], eventSeriesText := "" },
       .item { href := some "/124/m2", timeText := "TBD", teams := [],
               tagTexts := [], eventTexts := [], eventSeriesText := "" }] =
      .ok [{ id := 123, slug := "m1", href := "https://www.vlr.gg/123/m1",
             date_time := some ⟨⟨2025, 1, 4⟩, ⟨15, 0, 0⟩⟩, teams := [],
             tags := [], event_text := "", event_series_text := "" },
           { id := 124, slug := "m2", href := "https://www.vlr.gg/124/m2",
             date_time := none, teams := [], tags := [], event_text := "",
             event_series_text := "" }] := by
  refine ⟨?_, ?_, ?_, rfl⟩
  · exact parse_matches_error_policy.1 _
      ⟨.label (some "not a date"), by decide, by decide⟩
  · exact parse_matches_error_policy.2.1 _ (by decide)
  · exact parse_matches_error_policy.2.2 _ _ (by decide) (by decide)

/-- On success, the match-list parse is exactly the spec's stateful scan:
the result equals the reference fold that carries `currentDate` through the
labels and emits the successfully parsed items. -/
theorem pm_from_refines (doc : List MLElem) : ∀ (d : Option NDate) ms,
    parse_matches_from d doc = .ok ms →
    ms = refMatchItems d doc ∧
    ms.length = (doc.filter isOkMatchItem).length := by
  induction doc with
  | nil =>
    intro d ms h
    have h0 := Except.ok.inj h
    subst h0
    exact ⟨rfl, rfl⟩
  | cons e rest ih =>
    intro d ms h
    rcases e with ⟨_ | s⟩ | it
    · simp only [parse_matches_from] at h
      obtain ⟨h1, h2⟩ := ih d ms h
      exact ⟨h1, by simpa [isOkMatchItem] using h2⟩
    · simp only [parse_matches_from] at h
      cases hp : parseMatchDate (rtrim s) with
      | none => rw [hp] at h; exact Except.noConfusion h
      | some nd =>
        rw [hp] at h
        obtain ⟨h1, h2⟩ := ih (some nd) ms h
        constructor
        · simpa [refMatchItems, hp] using h1
        · simpa [isOkMatchItem] using h2
    · simp only [parse_matches_from] at h
      cases hpi : parse_match_item d it with
      | ok mItem =>
        rw [hpi] at h
        cases hres : parse_matches_from d rest with
        | error err => rw [hres] at h; exact Except.noConfusion h
        | ok ms' =>
          rw [hres] at h
          have h3 : mItem :: ms' = ms := by
            simpa [Except.map] using h
          subst h3
          obtain ⟨h1, h2⟩ := ih d ms' hres
          have hok : isOkMatchItem (.item it) = true := by
            simpa [isOkMatchItem] using parse_match_item_ok_isSome d it mItem hpi
          constructor
          · simp [refMatchItems, hpi, h1]
          · simp [List.filter_cons, hok, h2]
      | error err =>
        rw [hpi] at h
        obtain ⟨h1, h2⟩ := ih d ms h
        have hnok : isOkMatchItem (.item it) = false := by
          simp [isOkMatchItem, parse_match_item_err_none d it err hpi]
        constructor
        · simp [refMatchItems, hpi, h1]
        · simp [List.filter_cons, hnok, h2]

/-- C3 (amended): on success, `parse_matches` returns exactly the items of
the `currentDate`-carrying scan — one item per match-item element whose
per-item parse succeeds (items whose id fails to parse are dropped, so the
count is the number of successfully parsed items, not the raw element
count) — and every parsed item's date-time is the current label date
combined with the item's own parsed time (absent when either is absent). -/
theorem parse_matches_scan (doc : List MLElem) (ms : List MatchListItem)
    (h : parse_matches doc = .ok ms) :
    ms = refMatchItems none doc ∧
    ms.length = (doc.filter isOkMatchItem).length ∧
    (∀ d it x, parse_match_item d it = .ok x →
      x.date_time = d.bind fun dd =>
        (parseMatchTime it.timeText).map fun t => dd.andTime t) := by
  obtain ⟨h1, h2⟩ := pm_from_refines doc none ms h
  refine ⟨h1, h2, ?_⟩
  intro d it x hx
  rcases hsplit : mlIdSlug it with ⟨idStr, slug⟩
  simp only [parse_match_item, hsplit] at hx
  cases hid : rparseUInt 32 idStr with
  | none => rw [hid] at hx; exact Except.noConfusion hx
  | some n =>
    rw [hid] at hx
    have h3 := Except.ok.inj hx
    subst h3
    rfl

/-- Counterexample for C3 as stated: a document with one match-item element
whose id does not parse yields zero items, not one. -/
theorem parse_matches_count_cex :
    parse_matches [.item { href := some "", timeText := "", teams := [],
                           tagTexts := [], eventTexts := [],
                           eventSeriesText := "" }] = .ok [] ∧
    (List.filter (fun e => match e with | .item _ => true | .label _ => false)
      [MLElem.item { href := some "", timeText := "", teams := [],
                     tagTexts := [], eventTexts := [],
                     eventSeriesText := "" }]).length = 1 :=
  ⟨rfl, rfl⟩

/-- Witness for C3 (amended), on the date-label scenario document. -/
theorem parse_matches_scan_witness :
    ([{ id := 123, slug := "m1", href := "https://www.vlr.gg/123/m1",
        date_time := some ⟨⟨2025, 1, 4⟩, ⟨15, 0, 0⟩⟩, teams := [],
        tags := [], event_text := "", event_series_text := "" },
      { id := 124, slug := "m2", href := "https://www.vlr.gg/124/m2",
        date_time := none, teams := [], tags := [], event_text := "",
        event_series_text := "" }] : List MatchListItem) =
      refMatchItems none
        [.label (some "Sat, Jan 4, 2025"),
         .item { href := some "/123/m1", timeText := "3:00 PM", teams := [],
                 tagTexts := [], eventTexts := [], eventSeriesText := "" },
         .item { href := some "/124/m2", timeText := "TBD", teams := [],
                 tagTexts := [], eventTexts := [], eventSeriesText := "" }] ∧
    ([{ id := 123, slug := "m1", href := "https://www.vlr.gg/123/m1",
        date_time := some ⟨⟨2025, 1, 4⟩, ⟨15, 0, 0⟩⟩, teams := [],
        tags := [], event_text := "", event_series_text := "" },
      { id := 124, slug := "m2", href := "https://www.vlr.gg/124/m2",
        date_time := none, teams := [], tags := [], event_text := "",
        event_series_text := "" }] : List MatchListItem).length =
      (List.filter isOkMatchItem
        [.label (some "Sat, Jan 4, 2025"),
         .item { href := some "/123/m1", timeText := "3:00 PM", teams := [],
                 tagTexts := [], eventTexts := [], eventSeriesText := "" },
         .item { href := some "/124/m2", timeText := "TBD", teams := [],
                 tagTexts := [], eventTexts := [], eventSeriesText := "" }]).length := by
  have h := parse_matches_scan
    [.label (some "Sat, Jan 4, 2025"),
     .item { href := some "/123/m1", timeText := "3:00 PM", teams := [],
             tagTexts := [], eventTexts := [], eventSeriesText := "" },
     .item { href := some "/124/m2", timeText := "TBD", teams := [],
             tagTexts := [], eventTexts := [], eventSeriesText := "" }]
    [{ id := 123, slug := "m1", href := "https://www.vlr.gg/123/m1",
       date_time := some ⟨⟨2025, 1, 4⟩, ⟨15, 0, 0⟩⟩, teams := [],
       tags := [], event_text := "", event_series_text := "" },
     { id := 124, slug := "m2", href := "https://www.vlr.gg/124/m2",
       date_time := none, teams := [], tags := [], event_text := "",
       event_series_text := "" }] (by rfl)
  exact ⟨h.1, h.2.1⟩

/-- C1: whenever the main document parses successfully, `get_match`
succeeds no matter what happens to the performance and economy tab
fetches: the header, streams, vods, games, head-to-head and past-matches
fields are the ones parsed from the main document, and a tab whose fetch
fails, whose column is missing, or whose parse fails leaves the
corresponding optional field absent. -/
theorem get_match_degrade (id : Nat) (doc : MainDoc) (r : Match)
    (perf : Except VlrErr (Option PerfColInput))
    (econ : Except VlrErr (Option EconColInput))
    (h : parse_match id doc = .ok r) :
    ∃ m, get_match id (.ok (some doc)) perf econ = .ok m ∧
      m.header = r.header ∧ m.streams = r.streams ∧ m.vods = r.vods ∧
      m.games = r.games ∧ m.head_to_head = r.head_to_head ∧
      m.past_matches = r.past_matches ∧
      (∀ e, perf = .error e → m.performance = none) ∧
      (perf = .ok none → m.performance = none) ∧
      (∀ col, perf = .ok (some col) →
        exceptIsOk (parse_performance col r) = false → m.performance = none) ∧
      (∀ e, econ = .error e → m.economy = none) ∧
      (econ = .ok none → m.economy = none) ∧
      (∀ col, econ = .ok (some col) →
        exceptIsOk (parse_economy col) = false → m.economy = none) := by
  refine ⟨{ r with
      performance :=
        match perf with
        | .ok (some col) => (parse_performance col r).toOption
        | .ok none => none
        | .error _ => none,
      economy :=
        match econ with
        | .ok (some col) => (parse_economy col).toOption
        | .ok none => none
        | .error _ => none },
    ?_, rfl, rfl, rfl, rfl, rfl, rfl, ?_, ?_, ?_, ?_, ?_, ?_⟩
  · simp only [get_match, h]
  · intro e he; subst he; rfl
  · intro hp; subst hp; rfl
  · intro col hp hfail
    subst hp
    cases hpp : parse_performance col r with
    | error err => simp [hpp, Except.toOption]
    | ok p => rw [hpp] at hfail; simp [exceptIsOk] at hfail
  · intro e he; subst he; rfl
  · intro hp; subst hp; rfl
  · intro col hp hfail
    subst hp
    cases hpp : parse_economy col with
    | error err => simp [hpp, Except.toOption]
    | ok p => rw [hpp] at hfail; simp [exceptIsOk] at hfail

/-- Witness for C1: a minimal main document that parses, with both tab
fetches failing as transport errors — the call still succeeds, with both
optional sections absent and the games list the parsed one. -/
theorem get_match_degrade_witness :
    (get_match 1
      (.ok (some
        { header := some { eventIconSrc := some none, eventTitleText := "",
                           eventSeriesText := "",
                           dateAttr := some (some "2025-01-04 18:00:00"),
                           patchText := "", vsNoteTexts := [], eventHref := none,
                           noteText := "", teamLinkHrefs := [], teamIconSrcs := [],
                           teamNameTexts := [], teamScoreTexts := [] },
          streams := [], vods := [], games := [], h2h := [], pastCards := [] }))
      (.error .http) (.error .http)).toOption.map (·.performance) = some none ∧
    (get_match 1
      (.ok (some
        { header := some { eventIconSrc := some none, eventTitleText := "",
                           eventSeriesText := "",
                           dateAttr := some (some "2025-01-04 18:00:00"),
                           patchText := "", vsNoteTexts := [], eventHref := none,
                           noteText := "", teamLinkHrefs := [], teamIconSrcs := [],
                           teamNameTexts := [], teamScoreTexts := [] },
          streams := [], vods := [], games := [], h2h := [], pastCards := [] }))
      (.error .http) (.error .http)).toOption.map (·.economy) = some none ∧
    (get_match 1
      (.ok (some
        { header := some { eventIconSrc := some none, eventTitleText := "",
                           eventSeriesText := "",
                           dateAttr := some (some "2025-01-04 18:00:00"),
                           patchText := "", vsNoteTexts := [], eventHref := none,
                           noteText := "", teamLinkHrefs := [], teamIconSrcs := [],
                           teamNameTexts := [], teamScoreTexts := [] },
          streams := [], vods := [], games := [], h2h := [], pastCards := [] }))
      (.error .http) (.error .http)).toOption.map (·.games) = some [] := by
  obtain ⟨m, hm, _, _, _, hg, _, _, hperf, _, _, hecon, _, _⟩ :=
    get_match_degrade 1
      { header := some { eventIconSrc := some none, eventTitleText := "",
                         eventSeriesText := "",
                         dateAttr := some (some "2025-01-04 18:00:00"),
                         patchText := "", vsNoteTexts := [], eventHref := none,
                         noteText := "", teamLinkHrefs := [], teamIconSrcs := [],
                         teamNameTexts := [], teamScoreTexts := [] },
        streams := [], vods := [], games := [], h2h := [], pastCards := [] }
      { id := 1,
        header := { event_icon := "", event_title := "",
                    event_series_name := "", event_id := 0, event_slug := "",
                    date := ⟨⟨2025, 1, 4⟩, ⟨18, 0, 0⟩⟩, patch := "",
                    format := "", status := "", note := "", teams := [] },
        streams := [], vods := [], games := [], head_to_head := [],
        past_matches := [], performance := none, economy := none }
      (.error .http) (.error .http) (by rfl)
  rw [hm]
  exact ⟨congrArg some (hperf .http rfl), congrArg some (hecon .http rfl),
    congrArg some hg⟩

end Vlr
